import Mathlib

/-!
Verification of the video-player-api server against its specification.

The embedding models `src/server.js` together with the object-store client
module (`src/unnamed/part_000`, the `./r2` module).  The transcode handler
(`POST /api/transcode`) is modelled as a pure function from an environment —
the outcomes of its external interactions (store listing, HTTP download,
ffmpeg subprocess, upload, delete, unlink calls) — to the HTTP-level
response, the ordered trace of observable effects, and the final state of
the local scratch files and of the store keys.  The presigned-upload-URL
handler (`POST /api/upload-url`) is modelled over JavaScript strings
represented as `List Char`.
-/

namespace VideoPlayerApi

/-! ## The `./r2` module (src/unnamed/part_000)

The module defines `getPresignedUploadUrl`, `listObjects` and `deleteObject`
and exports exactly those three names (line 48):
`module.exports = { getPresignedUploadUrl, listObjects, deleteObject }`. -/

/-- The names exported by the `./r2` module (part_000, line 48). -/
def r2Exports : List String := ["getPresignedUploadUrl", "listObjects", "deleteObject"]

/-- Whether the `uploadFile` binding destructured in server.js line 10 is a
function, i.e. whether the `./r2` module exports `uploadFile`. -/
def uploadFileDefined : Bool := r2Exports.contains "uploadFile"

/-! ## JavaScript string operations, over `List Char` -/

/-- JavaScript `s.split(sep)` for a single-character separator:
`"".split(".") = [""]`, `"a.b".split(".") = ["a","b"]`, etc. -/
def splitOnChar (c : Char) : List Char → List (List Char)
  | [] => [[]]
  | x :: xs =>
    match splitOnChar c xs with
    | [] => [[]]
    | y :: ys => if x = c then [] :: y :: ys else (x :: y) :: ys

/-- JavaScript `arr.pop()` on the (always nonempty) result of `split`:
the last element of the list. -/
def lastSeg : List (List Char) → List Char
  | [] => []
  | [y] => y
  | _ :: y :: ys => lastSeg (y :: ys)

/-- JavaScript `s.toLowerCase()` (character-wise lower-casing). -/
def lowerAll (s : List Char) : List Char := s.map Char.toLower

/-- The suffix of `s` strictly after the last occurrence of `c`
(the whole of `s` when `c` does not occur), defined by head recursion.
Bridge between `splitOnChar`/`lastSeg` and the spec-worded `specExt`. -/
def extFrom (c : Char) : List Char → List Char
  | [] => []
  | x :: xs => if c ∈ xs then extFrom c xs else if x = c then xs else x :: xs

/-- Modelled from the words of the spec for the upload-URL key (claim C10):
"the substring of fileName after its last dot" — the characters taken from
the end of the string up to (not including) the last dot; the whole string
when it contains no dot. -/
def specExt (s : List Char) : List Char :=
  (s.reverse.takeWhile (fun a => a ≠ '.')).reverse

/-! ## POST /api/upload-url (server.js lines 72-95) -/

/-- Responses of the upload-url handler, at the level the claims need:
the two 400 validation errors, or 200 with the derived object key. -/
inductive UploadUrlResp where
  | missingField
  | badCategory
  | ok (key : List Char)
deriving DecidableEq, Repr

/-- server.js lines 85-86:
`const ext = fileName.split(".").pop().toLowerCase();`
`const key = category + "." + ext;` -/
def uploadUrlKey (fileName category : List Char) : List Char :=
  category ++ '.' :: lowerAll (lastSeg (splitOnChar '.' fileName))

/-- The POST /api/upload-url handler (server.js lines 72-95): validation of
the three body fields, the category whitelist, and the derived key. -/
def uploadUrlHandler (fileName fileType category : List Char) : UploadUrlResp :=
  if fileName = [] ∨ fileType = [] ∨ category = [] then .missingField
  else if category = "video".data ∨ category = "subtitle".data then
    .ok (uploadUrlKey fileName category)
  else .badCategory

/-! ## POST /api/transcode (server.js lines 120-207) -/

/-- An object as returned by `listObjects` (key and size; last-modified is
not consulted by the transcode handler). -/
structure StoredObject where
  Key : String
  Size : Nat
deriving DecidableEq, Repr

/-- What one `http(s).get` call produces: an error event on the request,
or a response with a status code and optional `Location` header. -/
inductive HttpEvent where
  | reqError (msg : String)
  | response (statusCode : Nat) (location : Option String)
deriving DecidableEq, Repr

/-- Observable effects of one transcode invocation, in program order. -/
inductive Effect where
  | storeList
  | fileCreate (p : String)
  | httpGet (url : String)
  | spawnFfmpeg (args : List String)
  | storePut (key p ctype : String)
  | storeDelete (key : String)
  | unlink (p : String)
deriving DecidableEq, Repr

/-- The HTTP-level outcome of the handler: 404 `No video found to transcode`,
200 `{success: true, key}`, or 500 `{error: msg}`. -/
inductive TResp where
  | notFound
  | success (key : String)
  | serverError (msg : String)
deriving DecidableEq, Repr

/-- Environment of one invocation: the store contents, the outcome of each
external interaction, and `Date.now()` as observed at path derivation. -/
structure Env where
  objects : List StoredObject
  listError : Option String
  publicUrl : String
  now : Nat
  firstResp : HttpEvent
  secondResp : HttpEvent
  ffmpegError : Option String
  outputAfterFfmpegError : Bool
  uploadError : Option String
  deleteError : Option String
  unlinkInputOk : Bool
  unlinkOutputOk : Bool
deriving DecidableEq, Repr

/-- State when control leaves the `try` block (server.js lines 125-201):
response, effect trace so far, the JS `inputPath`/`outputPath` variables,
whether each scratch file exists, and the store keys. -/
structure TryExit where
  resp : TResp
  trace : List Effect
  inputPath : Option String
  outputPath : Option String
  inCreated : Bool
  outCreated : Bool
  store : List String
deriving DecidableEq, Repr

/-- Final observable outcome of one transcode invocation. -/
structure Outcome where
  resp : TResp
  trace : List Effect
  inputFileExists : Bool
  outputFileExists : Bool
  store : List String
deriving DecidableEq, Repr

/-- server.js line 201: `error.message OR-ELSE "Transcoding failed"`. -/
def errMsg (m : String) : String := if m = "" then "Transcoding failed" else m

/-- server.js line 134: `videoObj.Key.split(".").pop().toLowerCase()`. -/
def extOf (key : String) : String := ⟨lowerAll (lastSeg (splitOnChar '.' key.data))⟩

/-- server.js line 138: `path.join(os.tmpdir(), "input_" + Date.now() + "." + ext)`
(with `/tmp` for `os.tmpdir()`). -/
def inputPathOf (now : Nat) (ext : String) : String :=
  "/tmp/input_" ++ toString now ++ "." ++ ext

/-- server.js line 139: `path.join(os.tmpdir(), "output_" + Date.now() + ".mp4")`. -/
def outputPathOf (now : Nat) : String :=
  "/tmp/output_" ++ toString now ++ ".mp4"

/-- server.js lines 166-173: the fixed ffmpeg argument list. -/
def ffmpegArgs (inputPath outputPath : String) : List String :=
  ["-i", inputPath, "-c:v", "copy", "-c:a", "aac", "-b:a", "192k", "-y", outputPath]

/-- server.js line 128: `objects.find(obj => obj.Key.startsWith("video."))`. -/
def findVideo (objs : List StoredObject) : Option StoredObject :=
  objs.find? (fun o => List.isPrefixOf "video.".data o.Key.data)

/-- Whether the download promise (server.js lines 144-159) rejects, and with
what message.  The first response is followed once when its status is in
[300, 400) and it carries a truthy `Location` header; the body of the
followed response is piped to the file unconditionally.  Only error
events on the two requests reject. -/
def downloadErr (first second : HttpEvent) : Option String :=
  match first with
  | .reqError m => some m
  | .response st loc =>
    match loc with
    | some l =>
      if 300 ≤ st ∧ st < 400 ∧ l ≠ "" then
        match second with
        | .reqError m => some m
        | .response _ _ => none
      else none
    | none => none

/-- The HTTP requests the download promise issues (one `get`, plus one more
when the first response is a followable redirect; the second request is
issued whatever its own outcome turns out to be). -/
def downloadGets (videoUrl : String) (first : HttpEvent) : List Effect :=
  match first with
  | .response st (some l) =>
    if 300 ≤ st ∧ st < 400 ∧ l ≠ "" then [Effect.httpGet videoUrl, Effect.httpGet l]
    else [Effect.httpGet videoUrl]
  | _ => [Effect.httpGet videoUrl]

/-- The store keys, as seen by `listObjects`. -/
def keysOf (objs : List StoredObject) : List String := objs.map (fun o => o.Key)

/-- Effect of a successful `PutObject` on the store keys. -/
def putKey (ks : List String) (k : String) : List String :=
  if k ∈ ks then ks else ks ++ [k]

/-- Effect of a successful `DeleteObject` on the store keys. -/
def removeKey (ks : List String) (k : String) : List String :=
  ks.filter (fun x => x ≠ k)

/-- The `try` block of the transcode handler (server.js lines 125-201):
locate, stage paths, download, transcode, publish, retire-original, with
every thrown error caught into a 500 response.  The `uploadDefined`
parameter is the value of the destructured `uploadFile` import being a
function; when it is `false`, awaiting `uploadFile(...)` throws
`TypeError: uploadFile is not a function` (server.js line 188). -/
def tryBlock (uploadDefined : Bool) (env : Env) : TryExit :=
  match env.listError with
  | some m => ⟨.serverError (errMsg m), [.storeList], none, none, false, false, keysOf env.objects⟩
  | none =>
    match findVideo env.objects with
    | none => ⟨.notFound, [.storeList], none, none, false, false, keysOf env.objects⟩
    | some videoObj =>
      let ip := inputPathOf env.now (extOf videoObj.Key)
      let op := outputPathOf env.now
      let tr0 := Effect.storeList :: Effect.fileCreate ip ::
        downloadGets (env.publicUrl ++ "/" ++ videoObj.Key) env.firstResp
      match downloadErr env.firstResp env.secondResp with
      | some m => ⟨.serverError (errMsg m), tr0, some ip, some op, true, false, keysOf env.objects⟩
      | none =>
        let tr1 := tr0 ++ [Effect.spawnFfmpeg (ffmpegArgs ip op)]
        match env.ffmpegError with
        | some m =>
          ⟨.serverError (errMsg m), tr1, some ip, some op, true,
            env.outputAfterFfmpegError, keysOf env.objects⟩
        | none =>
          match uploadDefined with
          | false =>
            ⟨.serverError "uploadFile is not a function", tr1, some ip, some op,
              true, true, keysOf env.objects⟩
          | true =>
            let tr2 := tr1 ++ [Effect.storePut "video.mp4" op "video/mp4"]
            match env.uploadError with
            | some m => ⟨.serverError (errMsg m), tr2, some ip, some op, true, true, keysOf env.objects⟩
            | none =>
              let st1 := putKey (keysOf env.objects) "video.mp4"
              if videoObj.Key = "video.mp4" then
                ⟨.success "video.mp4", tr2, some ip, some op, true, true, st1⟩
              else
                let tr3 := tr2 ++ [Effect.storeDelete videoObj.Key]
                match env.deleteError with
                | some m => ⟨.serverError (errMsg m), tr3, some ip, some op, true, true, st1⟩
                | none =>
                  ⟨.success "video.mp4", tr3, some ip, some op, true, true,
                    removeKey st1 videoObj.Key⟩

/-- One `if (p && existsSync(p)) unlinkSync(p)` step of the `finally` block:
returns the unlink effects, whether the file still exists afterwards, and
whether `unlinkSync` threw. -/
def unlinkStep (p : Option String) (ex ok : Bool) : List Effect × Bool × Bool :=
  match p, ex with
  | some q, true => ([Effect.unlink q], !ok, !ok)
  | _, _ => ([], ex, false)

/-- The `finally` block (server.js lines 202-206): unlink the input path,
then the output path; `unlinkSync` is unguarded, so a throw from the first
call aborts the block and the second deletion is never attempted.
Returns (unlink effects, input file exists after, output file exists after). -/
def cleanup (inPath outPath : Option String) (inEx outEx inOk outOk : Bool) :
    List Effect × Bool × Bool :=
  let s1 := unlinkStep inPath inEx inOk
  if s1.2.2 then (s1.1, s1.2.1, outEx)
  else
    let s2 := unlinkStep outPath outEx outOk
    (s1.1 ++ s2.1, s1.2.1, s2.2.1)

/-- The whole POST /api/transcode handler: `try` block, then the `finally`
cleanup (which can no longer change the already-sent response). -/
def transcodePipeline (uploadDefined : Bool) (env : Env) : Outcome :=
  let t := tryBlock uploadDefined env
  let c := cleanup t.inputPath t.outputPath t.inCreated t.outCreated
    env.unlinkInputOk env.unlinkOutputOk
  ⟨t.resp, t.trace ++ c.1, c.2.1, c.2.2, t.store⟩

/-- The handler as actually composed with the `./r2` module of this
repository (whose exports lack `uploadFile`). -/
def serverPipeline (env : Env) : Outcome :=
  transcodePipeline uploadFileDefined env

/-- Is this effect a store upload? -/
def isPut : Effect → Bool
  | .storePut _ _ _ => true
  | _ => false

/-- Is this effect a store deletion? -/
def isDelete : Effect → Bool
  | .storeDelete _ => true
  | _ => false

/-- Is this effect the ffmpeg subprocess spawn? -/
def isSpawn : Effect → Bool
  | .spawnFfmpeg _ => true
  | _ => false

/-- Is this effect the creation of a local scratch file? -/
def isFileCreate : Effect → Bool
  | .fileCreate _ => true
  | _ => false

/-! ## Scratch path derivation per invocation (claim C8) -/

/-- One pipeline invocation, for path-uniqueness statements: an identity,
the `Date.now()` value it observes at lines 138-139, and the source
extension it derived.  Distinct invocations may observe equal `now`. -/
structure Invocation where
  id : Nat
  now : Nat
  ext : String
deriving DecidableEq, Repr

/-- The local input path an invocation derives (server.js line 138). -/
def invInput (i : Invocation) : String := inputPathOf i.now i.ext

/-- The local output path an invocation derives (server.js line 139). -/
def invOutput (i : Invocation) : String := outputPathOf i.now

/-! ## Concrete invocation environments

`Env` fields, in order: objects, listError, publicUrl, now, firstResp,
secondResp, ffmpegError, outputAfterFfmpegError, uploadError, deleteError,
unlinkInputOk, unlinkOutputOk. -/

/-- Store holds `video.mov` (120 MB, public URL base `https://pub.example`);
every external interaction succeeds. -/
def envC1 : Env :=
  ⟨[⟨"video.mov", 125829120⟩], none, "https://pub.example", 1700000000000,
    .response 200 none, .response 200 none, none, true, none, none, true, true⟩

/-- Store holds only `subtitle.srt`: no object with the video prefix. -/
def envC3 : Env :=
  ⟨[⟨"subtitle.srt", 10⟩], none, "https://pub.example", 1000,
    .response 200 none, .response 200 none, none, false, none, none, true, true⟩

/-- The transcoder fails leaving a partial output file, and deleting the
input scratch file then throws. -/
def envC4 : Env :=
  ⟨[⟨"video.mov", 5⟩], none, "https://pub.example", 1000,
    .response 200 none, .response 200 none, some "ffmpeg exited with code 1",
    true, none, none, false, true⟩

/-- The initial download request emits an error event. -/
def envC5a : Env :=
  ⟨[⟨"video.mov", 5⟩], none, "https://pub.example", 1000,
    .reqError "socket hang up", .response 200 none, none, false, none, none, true, true⟩

/-- The download answers 404 with no redirect. -/
def env404 : Env :=
  ⟨[⟨"video.mov", 5⟩], none, "https://pub.example", 1000,
    .response 404 none, .response 200 none, none, false, none, none, true, true⟩

/-- The download answers a redirect whose target answers another redirect. -/
def envLoop : Env :=
  ⟨[⟨"video.mov", 5⟩], none, "https://pub.example", 1000,
    .response 301 (some "https://pub.example/a"),
    .response 302 (some "https://pub.example/b"), none, false, none, none, true, true⟩

/-- Download, transcode and upload succeed; deleting the original fails. -/
def envC6 : Env :=
  ⟨[⟨"video.mov", 5⟩], none, "https://pub.example", 1000,
    .response 200 none, .response 200 none, none, false, none,
    some "delete failed", true, true⟩

/-- The transcoder subprocess exits non-zero. -/
def envC7 : Env :=
  ⟨[⟨"video.mov", 5⟩], none, "https://pub.example", 1000,
    .response 200 none, .response 200 none, some "ffmpeg exited with code 1",
    true, none, none, true, true⟩

/-- The stored video key is `video.MP4`: canonical name up to letter case. -/
def envC9 : Env :=
  ⟨[⟨"video.MP4", 42⟩], none, "https://pub.example", 1000,
    .response 200 none, .response 200 none, none, true, none, none, true, true⟩

/-! ## Theorems -/

theorem splitOnChar_ne_nil (c : Char) (s : List Char) : splitOnChar c s ≠ [] := by
  cases s with
  | nil => simp [splitOnChar]
  | cons x xs =>
    rw [splitOnChar]
    cases h : splitOnChar c xs with
    | nil => simp
    | cons y ys =>
      by_cases hx : x = c <;> simp [hx]

theorem splitOnChar_cons (c x : Char) (xs y : List Char) (ys : List (List Char))
    (h : splitOnChar c xs = y :: ys) :
    splitOnChar c (x :: xs) = if x = c then [] :: y :: ys else (x :: y) :: ys := by
  rw [splitOnChar, h]

theorem splitOnChar_of_not_mem (c : Char) (s : List Char) (h : c ∉ s) :
    splitOnChar c s = [s] := by
  induction s with
  | nil => rfl
  | cons x xs ih =>
    simp only [List.mem_cons, not_or] at h
    rw [splitOnChar_cons c x xs xs [] (ih h.2), if_neg (fun he => h.1 he.symm)]

theorem splitOnChar_two_le (c : Char) (s : List Char) (h : c ∈ s) :
    2 ≤ (splitOnChar c s).length := by
  induction s with
  | nil => simp at h
  | cons x xs ih =>
    cases hs : splitOnChar c xs with
    | nil => exact absurd hs (splitOnChar_ne_nil c xs)
    | cons y ys =>
      rw [splitOnChar_cons c x xs y ys hs]
      by_cases hx : x = c
      · simp [hx]
      · have hm : c ∈ xs := by
          rcases List.mem_cons.mp h with h1 | h1
          · exact absurd h1.symm hx
          · exact h1
        have h2 := ih hm
        rw [hs] at h2
        simp only [List.length_cons] at h2
        simp [hx]
        omega

theorem extFrom_of_not_mem (c : Char) (s : List Char) (h : c ∉ s) : extFrom c s = s := by
  cases s with
  | nil => rfl
  | cons x xs =>
    simp only [List.mem_cons, not_or] at h
    rw [extFrom, if_neg h.2, if_neg (fun he => h.1 he.symm)]

theorem extFrom_cons_self (c : Char) (xs : List Char) :
    extFrom c (c :: xs) = extFrom c xs := by
  rw [extFrom]
  by_cases hm : c ∈ xs
  · rw [if_pos hm]
  · rw [if_neg hm, if_pos rfl, extFrom_of_not_mem c xs hm]

theorem lastSeg_splitOnChar (c : Char) (s : List Char) :
    lastSeg (splitOnChar c s) = extFrom c s := by
  induction s with
  | nil => rfl
  | cons x xs ih =>
    cases h : splitOnChar c xs with
    | nil => exact absurd h (splitOnChar_ne_nil c xs)
    | cons y ys =>
      rw [h] at ih
      rw [splitOnChar_cons c x xs y ys h]
      by_cases hx : x = c
      · subst hx
        rw [if_pos rfl, extFrom_cons_self]
        calc lastSeg ([] :: y :: ys) = lastSeg (y :: ys) := rfl
        _ = extFrom x xs := ih
      · rw [if_neg hx]
        by_cases hm : c ∈ xs
        · have hlen := splitOnChar_two_le c xs hm
          rw [h] at hlen
          simp only [List.length_cons] at hlen
          cases ys with
          | nil => simp at hlen
          | cons z zs =>
            have e1 : lastSeg ((x :: y) :: z :: zs) = lastSeg (z :: zs) := rfl
            have e2 : lastSeg (y :: z :: zs) = lastSeg (z :: zs) := rfl
            rw [e1, ← e2, ih, extFrom, if_pos hm]
        · have h2 := splitOnChar_of_not_mem c xs hm
          rw [h] at h2
          cases h2
          rw [extFrom, if_neg hm, if_neg hx]
          rfl

theorem extFrom_snoc (c a : Char) (ys : List Char) :
    extFrom c (ys ++ [a]) = if a = c then [] else extFrom c ys ++ [a] := by
  induction ys with
  | nil =>
    by_cases ha : a = c <;> simp [extFrom, ha]
  | cons x xs ih =>
    rw [List.cons_append, extFrom]
    by_cases ha : a = c
    · have hm : c ∈ xs ++ [a] := by simp [ha.symm]
      rw [if_pos hm, ih, if_pos ha, if_pos ha]
    · by_cases hm : c ∈ xs
      · have hm2 : c ∈ xs ++ [a] := List.mem_append_left _ hm
        rw [if_pos hm2, ih, if_neg ha, if_neg ha, extFrom, if_pos hm]
      · have hm2 : c ∉ xs ++ [a] := by
          simp only [List.mem_append, List.mem_singleton, not_or]
          exact ⟨hm, fun he => ha he.symm⟩
        rw [if_neg hm2, if_neg ha, extFrom, if_neg hm]
        by_cases hx : x = c
        · rw [if_pos hx, if_pos hx]
        · rw [if_neg hx, if_neg hx, List.cons_append]

theorem specExt_eq_extFrom (s : List Char) : specExt s = extFrom '.' s := by
  induction s using List.reverseRecOn with
  | nil => rfl
  | append_singleton ys a ih =>
    rw [extFrom_snoc]
    by_cases ha : a = '.'
    · subst ha
      simp [specExt, List.reverse_append]
    · rw [if_neg ha, specExt, List.reverse_append]
      simp only [List.reverse_singleton, List.singleton_append, List.takeWhile_cons]
      rw [if_pos (by simp [ha])]
      rw [List.reverse_cons, ← ih, specExt]

theorem transcodePipeline_resp (u : Bool) (env : Env) :
    (transcodePipeline u env).resp = (tryBlock u env).resp := rfl

theorem transcodePipeline_store (u : Bool) (env : Env) :
    (transcodePipeline u env).store = (tryBlock u env).store := rfl

theorem tryBlock_false_no_success (env : Env) (k : String) :
    (tryBlock false env).resp ≠ TResp.success k := by
  obtain ⟨objs, le, pu, n, f, s, fe, oae, ue, de, ui, uo⟩ := env
  cases le with
  | some m => simp [tryBlock]
  | none =>
    cases hf : findVideo objs with
    | none => simp [tryBlock, hf]
    | some vo =>
      cases hd : downloadErr f s with
      | some m => simp [tryBlock, hf, hd]
      | none =>
        cases fe with
        | some m => simp [tryBlock, hf, hd]
        | none => simp [tryBlock, hf, hd]

/-- Claim C10: for every valid request to the presigned-upload-URL handler
(nonempty fileName and fileType, category `video` or `subtitle`), the
returned key is the category, a dot, and the lower-cased substring of
fileName after its last dot; when fileName contains no dot that substring
is the whole fileName. -/
theorem upload_url_key_derivation (fileName fileType category : List Char)
    (hf : fileName ≠ []) (ht : fileType ≠ [])
    (hc : category = "video".data ∨ category = "subtitle".data) :
    uploadUrlHandler fileName fileType category
      = UploadUrlResp.ok (category ++ '.' :: lowerAll (specExt fileName)) ∧
    ('.' ∉ fileName → specExt fileName = fileName) := by
  constructor
  · have hcne : category ≠ [] := by
      rcases hc with h | h <;> subst h <;> decide
    rw [uploadUrlHandler, if_neg (by simp [hf, ht, hcne]), if_pos hc,
      uploadUrlKey, lastSeg_splitOnChar, ← specExt_eq_extFrom]
  · intro hd
    rw [specExt_eq_extFrom, extFrom_of_not_mem '.' fileName hd]

/-- Witness for C10 at two concrete requests: a dotted fileName and a
dotless fileName. -/
theorem upload_url_key_derivation_witness :
    uploadUrlHandler ("My.Video.MOV".data) ("video/quicktime".data) ("video".data)
      = UploadUrlResp.ok ("video.mov".data) ∧
    uploadUrlHandler ("rawvideo".data) ("application/octet-stream".data) ("video".data)
      = UploadUrlResp.ok ("video.rawvideo".data) := by
  constructor
  · have h := (upload_url_key_derivation ("My.Video.MOV".data) ("video/quicktime".data)
      ("video".data) (by decide) (by decide) (Or.inl rfl)).1
    rw [h]; decide
  · have h := (upload_url_key_derivation ("rawvideo".data) ("application/octet-stream".data)
      ("video".data) (by decide) (by decide) (Or.inl rfl)).1
    rw [h]; decide

/-- Claim C1 (code bug): on the happy-path input — the store holds exactly
`video.mov`, download and transcode succeed — the server as composed with
the actual `./r2` module does not upload, delete or succeed: `uploadFile`
is undefined, the handler throws and responds 500, and the store still
holds only `video.mov`. -/
theorem transcode_happy_path_hits_missing_uploadFile :
    (serverPipeline envC1).resp = TResp.serverError "uploadFile is not a function" ∧
    (serverPipeline envC1).trace.any isSpawn = true ∧
    (serverPipeline envC1).trace.any isPut = false ∧
    (serverPipeline envC1).trace.any isDelete = false ∧
    (serverPipeline envC1).store = ["video.mov"] ∧
    (serverPipeline envC1).inputFileExists = false ∧
    (serverPipeline envC1).outputFileExists = false := by
  decide

/-- Claim C2: with the `./r2` module exporting no `uploadFile`, the
destructured binding is undefined; no invocation of the transcode endpoint
ever returns a success result, and whenever locate, download and transcode
all succeed the handler responds 500 with the TypeError message. -/
theorem transcode_missing_upload_export_forces_500 (env : Env) :
    (∀ k, (serverPipeline env).resp ≠ TResp.success k) ∧
    (env.listError = none → (findVideo env.objects).isSome = true →
      downloadErr env.firstResp env.secondResp = none → env.ffmpegError = none →
      (serverPipeline env).resp = TResp.serverError "uploadFile is not a function") := by
  have hu : uploadFileDefined = false := rfl
  constructor
  · intro k
    rw [serverPipeline, transcodePipeline_resp, hu]
    exact tryBlock_false_no_success env k
  · intro h1 h2 h3 h4
    rw [serverPipeline, transcodePipeline_resp, hu]
    obtain ⟨vo, hvo⟩ := Option.isSome_iff_exists.mp h2
    simp only [tryBlock, h1, hvo, h3, h4]

/-- Witness for C2 at the happy-path environment. -/
theorem transcode_missing_upload_export_forces_500_witness :
    (serverPipeline envC1).resp = TResp.serverError "uploadFile is not a function" :=
  (transcode_missing_upload_export_forces_500 envC1).2 rfl (by decide) rfl rfl

/-- Claim C3: when no store object has a key starting with `video.`, the
invocation returns 404 NotFound, its whole trace is the single store
listing (no HTTP request, no file creation, no subprocess, no further
store operation), no scratch file exists afterwards, and the store is
unchanged. -/
theorem transcode_no_video_notFound (u : Bool) (env : Env)
    (h1 : env.listError = none)
    (h2 : ∀ o ∈ env.objects, List.isPrefixOf "video.".data o.Key.data = false) :
    transcodePipeline u env
      = ⟨TResp.notFound, [Effect.storeList], false, false, keysOf env.objects⟩ := by
  have hfv : findVideo env.objects = none := by
    rw [findVideo]
    apply List.find?_eq_none.mpr
    intro x hx
    simp [h2 x hx]
  simp only [transcodePipeline, tryBlock, h1, hfv, cleanup, unlinkStep]
  simp

/-- Witness for C3: the store holds only `subtitle.srt`. -/
theorem transcode_no_video_notFound_witness :
    transcodePipeline false envC3
      = ⟨TResp.notFound, [Effect.storeList], false, false, ["subtitle.srt"]⟩ :=
  transcode_no_video_notFound false envC3 rfl (by decide)

theorem cleanup_ok (ip op : Option String) (iE oE : Bool)
    (h1 : ip = none → iE = false) (h2 : op = none → oE = false) :
    (cleanup ip op iE oE true true).2.1 = false ∧
    (cleanup ip op iE oE true true).2.2 = false := by
  cases ip <;> cases op <;> cases iE <;> cases oE <;> simp_all [cleanup, unlinkStep]

theorem tryBlock_created_paths (u : Bool) (env : Env) :
    ((tryBlock u env).inputPath = none → (tryBlock u env).inCreated = false) ∧
    ((tryBlock u env).outputPath = none → (tryBlock u env).outCreated = false) := by
  obtain ⟨objs, le, pu, n, f, s, fe, oae, ue, de, ui, uo⟩ := env
  cases le with
  | some m => simp [tryBlock]
  | none =>
    cases hf : findVideo objs with
    | none => simp [tryBlock, hf]
    | some vo =>
      cases hd : downloadErr f s with
      | some m => simp [tryBlock, hf, hd]
      | none =>
        cases fe with
        | some m => simp [tryBlock, hf, hd]
        | none =>
          cases u with
          | false => simp [tryBlock, hf, hd]
          | true =>
            cases ue with
            | some m => simp [tryBlock, hf, hd]
            | none =>
              by_cases hk : vo.Key = "video.mp4"
              · simp [tryBlock, hf, hd, hk]
              · cases de with
                | some m => simp [tryBlock, hf, hd, hk]
                | none => simp [tryBlock, hf, hd, hk]

theorem cleanup_any_false (p : Effect → Bool) (hp : ∀ q, p (Effect.unlink q) = false)
    (ip op : Option String) (iE oE a b : Bool) :
    ((cleanup ip op iE oE a b).1).any p = false := by
  cases ip <;> cases op <;> cases iE <;> cases oE <;> cases a <;> cases b <;>
    simp [cleanup, unlinkStep, hp]

theorem downloadGets_any_false (p : Effect → Bool) (hp : ∀ q, p (Effect.httpGet q) = false)
    (url : String) (f : HttpEvent) :
    (downloadGets url f).any p = false := by
  cases f with
  | reqError m => simp [downloadGets, hp]
  | response st loc =>
    cases loc with
    | none => simp [downloadGets, hp]
    | some l =>
      by_cases h : 300 ≤ st ∧ st < 400 ∧ l ≠ ""
      · simp [downloadGets, h, hp]
      · simp [downloadGets, h, hp]

theorem transcodePipeline_trace (u : Bool) (env : Env) :
    (transcodePipeline u env).trace
      = (tryBlock u env).trace ++
        (cleanup (tryBlock u env).inputPath (tryBlock u env).outputPath
          (tryBlock u env).inCreated (tryBlock u env).outCreated
          env.unlinkInputOk env.unlinkOutputOk).1 := rfl

theorem transcodePipeline_inEx (u : Bool) (env : Env) :
    (transcodePipeline u env).inputFileExists
      = (cleanup (tryBlock u env).inputPath (tryBlock u env).outputPath
          (tryBlock u env).inCreated (tryBlock u env).outCreated
          env.unlinkInputOk env.unlinkOutputOk).2.1 := rfl

theorem transcodePipeline_outEx (u : Bool) (env : Env) :
    (transcodePipeline u env).outputFileExists
      = (cleanup (tryBlock u env).inputPath (tryBlock u env).outputPath
          (tryBlock u env).inCreated (tryBlock u env).outCreated
          env.unlinkInputOk env.unlinkOutputOk).2.2 := rfl

/-- Claim C4 (amended): the finally block attempts deletion of the input
scratch file and then the output scratch file; when both unlink calls
succeed no scratch file remains, on every exit path.  But the deletions
are unguarded: when deleting the input scratch file throws, the block
aborts — the input file remains, only its unlink was attempted, and the
output file (if it existed) is left in place. -/
theorem cleanup_removes_scratch_files_amended :
    (∀ (u : Bool) (env : Env), env.unlinkInputOk = true → env.unlinkOutputOk = true →
      (transcodePipeline u env).inputFileExists = false ∧
      (transcodePipeline u env).outputFileExists = false) ∧
    (∀ (ip op : String) (oE oOk : Bool),
      cleanup (some ip) (some op) true oE false oOk = ([Effect.unlink ip], true, oE)) := by
  constructor
  · intro u env hui huo
    have hp := tryBlock_created_paths u env
    have hc := cleanup_ok (tryBlock u env).inputPath (tryBlock u env).outputPath
      (tryBlock u env).inCreated (tryBlock u env).outCreated hp.1 hp.2
    constructor
    · rw [transcodePipeline_inEx, hui, huo]
      exact hc.1
    · rw [transcodePipeline_outEx, hui, huo]
      exact hc.2
  · intro ip op oE oOk
    simp [cleanup, unlinkStep]

/-- Witness for the amended C4: both parts at concrete inputs. -/
theorem cleanup_removes_scratch_files_amended_witness :
    ((transcodePipeline false envC7).inputFileExists = false ∧
     (transcodePipeline false envC7).outputFileExists = false) ∧
    cleanup (some "/tmp/input_1.mov") (some "/tmp/output_1.mp4") true true false true
      = ([Effect.unlink "/tmp/input_1.mov"], true, true) :=
  ⟨cleanup_removes_scratch_files_amended.1 false envC7 rfl rfl,
   cleanup_removes_scratch_files_amended.2 "/tmp/input_1.mov" "/tmp/output_1.mp4" true true⟩

/-- Counterexample to C4 as stated: the transcoder fails leaving a partial
output file and deleting the input scratch file throws; then both scratch
files remain after the job, and the deletion of the output file is never
attempted (no unlink of the output path is in the trace, though the unlink
of the input path is). -/
theorem cleanup_unlink_failure_leaves_output_cex :
    (serverPipeline envC4).inputFileExists = true ∧
    (serverPipeline envC4).outputFileExists = true ∧
    (serverPipeline envC4).trace.any (fun e => e == Effect.unlink (outputPathOf 1000)) = false ∧
    (serverPipeline envC4).trace.any (fun e => e == Effect.unlink (inputPathOf 1000 "mov")) = true := by
  decide

theorem tryBlock_spawn_of_download_ok (u : Bool) (env : Env) (vo : StoredObject)
    (h1 : env.listError = none) (h2 : findVideo env.objects = some vo)
    (h3 : downloadErr env.firstResp env.secondResp = none) :
    (tryBlock u env).trace.any isSpawn = true := by
  obtain ⟨objs, le, pu, n, f, s, fe, oae, ue, de, ui, uo⟩ := env
  simp only at h1 h2 h3
  subst h1
  cases fe with
  | some m => simp [tryBlock, h2, h3, isSpawn, List.any_append]
  | none =>
    cases u with
    | false => simp [tryBlock, h2, h3, isSpawn, List.any_append]
    | true =>
      cases ue with
      | some m => simp [tryBlock, h2, h3, isSpawn, List.any_append]
      | none =>
        by_cases hk : vo.Key = "video.mp4"
        · simp [tryBlock, h2, h3, hk, isSpawn, List.any_append]
        · cases de with
          | some m => simp [tryBlock, h2, h3, hk, isSpawn, List.any_append]
          | none => simp [tryBlock, h2, h3, hk, isSpawn, List.any_append]

theorem pipeline_spawn_of_download_ok (u : Bool) (env : Env) (vo : StoredObject)
    (h1 : env.listError = none) (h2 : findVideo env.objects = some vo)
    (h3 : downloadErr env.firstResp env.secondResp = none) :
    (transcodePipeline u env).trace.any isSpawn = true := by
  rw [transcodePipeline_trace, List.any_append,
    tryBlock_spawn_of_download_ok u env vo h1 h2 h3, Bool.true_or]

/-- Claim C5 (amended): when a video is present, an error event on either
the initial download request or the single followed redirect request
rejects the download: the handler responds 500 with that error message, no
transcoder subprocess is spawned, and (when its deletion succeeds) the
input scratch file is removed.  No other response aborts the download: a
non-redirect non-2xx response, and equally a followable redirect whose
target responds with anything at all — another redirect included — resolve
the download (their body is written to the input file), and the pipeline
proceeds to spawn the transcoder. -/
theorem download_stage_error_behavior_amended (u : Bool) (env : Env) (vo : StoredObject)
    (h1 : env.listError = none) (h2 : findVideo env.objects = some vo) :
    (∀ m, env.firstResp = .reqError m →
      (transcodePipeline u env).resp = TResp.serverError (errMsg m) ∧
      (transcodePipeline u env).trace.any isSpawn = false ∧
      (env.unlinkInputOk = true →
        (transcodePipeline u env).inputFileExists = false ∧
        (transcodePipeline u env).outputFileExists = false)) ∧
    (∀ st l m, env.firstResp = .response st (some l) → 300 ≤ st ∧ st < 400 ∧ l ≠ "" →
      env.secondResp = .reqError m →
      (transcodePipeline u env).resp = TResp.serverError (errMsg m) ∧
      (transcodePipeline u env).trace.any isSpawn = false) ∧
    (∀ st, env.firstResp = .response st none →
      (transcodePipeline u env).trace.any isSpawn = true) ∧
    (∀ st l, env.firstResp = .response st (some l) → ¬(300 ≤ st ∧ st < 400 ∧ l ≠ "") →
      (transcodePipeline u env).trace.any isSpawn = true) ∧
    (∀ st l st2 loc2, env.firstResp = .response st (some l) → 300 ≤ st ∧ st < 400 ∧ l ≠ "" →
      env.secondResp = .response st2 loc2 →
      (transcodePipeline u env).trace.any isSpawn = true) := by
  refine ⟨?_, ?_, ?_, ?_, ?_⟩
  · intro m hf
    have hd : downloadErr env.firstResp env.secondResp = some m := by
      rw [hf, downloadErr]
    refine ⟨?_, ?_, ?_⟩
    · rw [transcodePipeline_resp]
      simp only [tryBlock, h1, h2, hd]
    · rw [transcodePipeline_trace, List.any_append,
        cleanup_any_false isSpawn (fun q => rfl), Bool.or_false]
      simp only [tryBlock, h1, h2, hd]
      simp [isSpawn, downloadGets_any_false isSpawn (fun q => rfl)]
    · intro hui
      have hin : (tryBlock u env).inputPath = some (inputPathOf env.now (extOf vo.Key)) ∧
          (tryBlock u env).outputPath = some (outputPathOf env.now) ∧
          (tryBlock u env).inCreated = true ∧ (tryBlock u env).outCreated = false := by
        simp [tryBlock, h1, h2, hd]
      rw [transcodePipeline_inEx, transcodePipeline_outEx,
        hin.1, hin.2.1, hin.2.2.1, hin.2.2.2, hui]
      cases huo : env.unlinkOutputOk <;> simp [cleanup, unlinkStep]
  · intro st l m hf hred hs
    have hd : downloadErr env.firstResp env.secondResp = some m := by
      rw [hf, hs]
      simp [downloadErr, hred]
    constructor
    · rw [transcodePipeline_resp]
      simp only [tryBlock, h1, h2, hd]
    · rw [transcodePipeline_trace, List.any_append,
        cleanup_any_false isSpawn (fun q => rfl), Bool.or_false]
      simp only [tryBlock, h1, h2, hd]
      simp [isSpawn, downloadGets_any_false isSpawn (fun q => rfl)]
  · intro st hf
    exact pipeline_spawn_of_download_ok u env vo h1 h2 (by rw [hf, downloadErr])
  · intro st l hf hnred
    exact pipeline_spawn_of_download_ok u env vo h1 h2
      (by rw [hf]; simp [downloadErr, hnred])
  · intro st l st2 loc2 hf hred hs
    exact pipeline_spawn_of_download_ok u env vo h1 h2
      (by rw [hf, hs]; simp [downloadErr, hred])

/-- Witness for the amended C5: the first download request errors. -/
theorem download_stage_error_behavior_amended_witness :
    (transcodePipeline false envC5a).resp = TResp.serverError (errMsg "socket hang up") ∧
    (transcodePipeline false envC5a).trace.any isSpawn = false ∧
    ((transcodePipeline false envC5a).inputFileExists = false ∧
     (transcodePipeline false envC5a).outputFileExists = false) := by
  have h := (download_stage_error_behavior_amended false envC5a ⟨"video.mov", 5⟩
    rfl (by decide)).1 "socket hang up" rfl
  exact ⟨h.1, h.2.1, h.2.2 rfl⟩

/-- Counterexample to C5 as stated: a non-redirect non-2xx response (404)
does not abort the job with a DownloadError — the transcoder is spawned —
and an unbounded redirect chain does not make the pipeline fail with
DownloadError either: after the single followed redirect the second
redirect response is treated as the payload, the transcoder is spawned,
and the third hop is never requested. -/
theorem download_non2xx_and_double_redirect_proceed_cex :
    (serverPipeline env404).trace.any isSpawn = true ∧
    (serverPipeline env404).resp = TResp.serverError "uploadFile is not a function" ∧
    (serverPipeline envLoop).trace.any isSpawn = true ∧
    Effect.httpGet "https://pub.example/a" ∈ (serverPipeline envLoop).trace ∧
    (serverPipeline envLoop).trace.any (fun e => e == Effect.httpGet "https://pub.example/b") = false := by
  decide

/-- Claim C6 (amended): when upload succeeds but deleting the original
fails, the new `video.mp4` object is present in the store, but the job is
not reported successful: the thrown deletion error is caught and the
handler responds 500 with its message. -/
theorem retire_failure_outcome_amended (env : Env) (vo : StoredObject) (m : String)
    (h1 : env.listError = none) (h2 : findVideo env.objects = some vo)
    (h3 : downloadErr env.firstResp env.secondResp = none)
    (h4 : env.ffmpegError = none) (h5 : env.uploadError = none)
    (h6 : vo.Key ≠ "video.mp4") (h7 : env.deleteError = some m) :
    (transcodePipeline true env).resp = TResp.serverError (errMsg m) ∧
    "video.mp4" ∈ (transcodePipeline true env).store := by
  constructor
  · rw [transcodePipeline_resp]
    simp only [tryBlock, h1, h2, h3, h4, h5, h7, if_neg h6]
  · rw [transcodePipeline_store]
    simp only [tryBlock, h1, h2, h3, h4, h5, h7, if_neg h6]
    rw [putKey]
    by_cases h : ("video.mp4" : String) ∈ keysOf env.objects
    · rw [if_pos h]; exact h
    · rw [if_neg h]; simp

/-- Witness for the amended C6. -/
theorem retire_failure_outcome_amended_witness :
    (transcodePipeline true envC6).resp = TResp.serverError (errMsg "delete failed") ∧
    "video.mp4" ∈ (transcodePipeline true envC6).store :=
  retire_failure_outcome_amended envC6 ⟨"video.mov", 5⟩ "delete failed"
    rfl (by decide) rfl rfl rfl (by decide) rfl

/-- Counterexample to C6 as stated: with upload succeeding (a functioning
upload binding) and the deletion of `video.mov` failing, the handler does
not report success — it responds 500 — although the upload did run and
`video.mp4` is in the store. -/
theorem retire_failure_reports_500_cex :
    (transcodePipeline true envC6).resp = TResp.serverError "delete failed" ∧
    (transcodePipeline true envC6).resp ≠ TResp.success "video.mp4" ∧
    (transcodePipeline true envC6).trace.any isPut = true ∧
    "video.mp4" ∈ (transcodePipeline true envC6).store := by
  decide

/-- Claim C7: when the transcoder subprocess fails (non-zero exit or spawn
failure), the handler responds 500 with that error message and the store
is untouched — no put and no delete occur, and the store keys are exactly
those listed. -/
theorem ffmpeg_failure_leaves_store_unmodified (u : Bool) (env : Env) (vo : StoredObject) (m : String)
    (h1 : env.listError = none) (h2 : findVideo env.objects = some vo)
    (h3 : downloadErr env.firstResp env.secondResp = none)
    (h4 : env.ffmpegError = some m) :
    (transcodePipeline u env).resp = TResp.serverError (errMsg m) ∧
    (transcodePipeline u env).trace.any isPut = false ∧
    (transcodePipeline u env).trace.any isDelete = false ∧
    (transcodePipeline u env).store = keysOf env.objects := by
  refine ⟨?_, ?_, ?_, ?_⟩
  · rw [transcodePipeline_resp]
    simp only [tryBlock, h1, h2, h3, h4]
  · rw [transcodePipeline_trace, List.any_append,
      cleanup_any_false isPut (fun q => rfl), Bool.or_false]
    simp only [tryBlock, h1, h2, h3, h4]
    simp [isPut, List.any_append, downloadGets_any_false isPut (fun q => rfl)]
  · rw [transcodePipeline_trace, List.any_append,
      cleanup_any_false isDelete (fun q => rfl), Bool.or_false]
    simp only [tryBlock, h1, h2, h3, h4]
    simp [isDelete, List.any_append, downloadGets_any_false isDelete (fun q => rfl)]
  · rw [transcodePipeline_store]
    simp only [tryBlock, h1, h2, h3, h4]

/-- Witness for C7. -/
theorem ffmpeg_failure_leaves_store_unmodified_witness :
    (transcodePipeline false envC7).resp = TResp.serverError (errMsg "ffmpeg exited with code 1") ∧
    (transcodePipeline false envC7).trace.any isPut = false ∧
    (transcodePipeline false envC7).trace.any isDelete = false ∧
    (transcodePipeline false envC7).store = keysOf envC7.objects :=
  ffmpeg_failure_leaves_store_unmodified false envC7 ⟨"video.mov", 5⟩
    "ffmpeg exited with code 1" rfl (by decide) rfl rfl

/-- Claim C8 (amended): the derived scratch paths embed only the
`Date.now()` millisecond timestamp as discriminator; two invocations that
observe the same timestamp (and derive the same source extension) derive
identical input and output paths, so uniqueness across concurrent
invocations is not guaranteed. -/
theorem scratch_paths_timestamp_discriminator_amended (a b : Invocation)
    (hn : a.now = b.now) (he : a.ext = b.ext) :
    invInput a = invInput b ∧ invOutput a = invOutput b ∧
    invInput a = "/tmp/input_" ++ toString a.now ++ "." ++ a.ext ∧
    invOutput a = "/tmp/output_" ++ toString a.now ++ ".mp4" := by
  refine ⟨?_, ?_, rfl, rfl⟩
  · rw [invInput, invInput, inputPathOf, inputPathOf, hn, he]
  · rw [invOutput, invOutput, outputPathOf, outputPathOf, hn]

/-- Witness for the amended C8. -/
theorem scratch_paths_timestamp_discriminator_amended_witness :
    invInput ⟨0, 1000, "mov"⟩ = invInput ⟨1, 1000, "mov"⟩ ∧
    invOutput ⟨0, 1000, "mov"⟩ = invOutput ⟨1, 1000, "mov"⟩ ∧
    invInput ⟨0, 1000, "mov"⟩ = "/tmp/input_" ++ toString 1000 ++ "." ++ "mov" ∧
    invOutput ⟨0, 1000, "mov"⟩ = "/tmp/output_" ++ toString 1000 ++ ".mp4" :=
  scratch_paths_timestamp_discriminator_amended ⟨0, 1000, "mov"⟩ ⟨1, 1000, "mov"⟩ rfl rfl

/-- Counterexample to C8 as stated: two distinct invocations observing the
same millisecond and extension derive identical input and output paths. -/
theorem scratch_paths_can_collide_cex :
    ∃ a b : Invocation, a ≠ b ∧ invInput a = invInput b ∧ invOutput a = invOutput b :=
  ⟨⟨0, 1000, "mov"⟩, ⟨1, 1000, "mov"⟩, by decide, rfl, rfl⟩

/-- Claim C9: the canonical-key comparison before the retire step is exact
(case-sensitive) while the extension for the local input path is
lower-cased: for a stored key that differs from `video.mp4` only in letter
case, a full run publishes `video.mp4`, reports success, and deletes the
original mixed-case key (which is then absent from the store), having
created the input scratch file under the lower-cased extension. -/
theorem case_sensitive_retire_comparison (env : Env) (vo : StoredObject)
    (h1 : env.listError = none) (h2 : findVideo env.objects = some vo)
    (_hcase : (⟨lowerAll vo.Key.data⟩ : String) = "video.mp4")
    (hne : vo.Key ≠ "video.mp4")
    (h3 : downloadErr env.firstResp env.secondResp = none)
    (h4 : env.ffmpegError = none) (h5 : env.uploadError = none)
    (h6 : env.deleteError = none) :
    (transcodePipeline true env).resp = TResp.success "video.mp4" ∧
    Effect.storeDelete vo.Key ∈ (transcodePipeline true env).trace ∧
    Effect.fileCreate (inputPathOf env.now (extOf vo.Key)) ∈ (transcodePipeline true env).trace ∧
    vo.Key ∉ (transcodePipeline true env).store := by
  refine ⟨?_, ?_, ?_, ?_⟩
  · rw [transcodePipeline_resp]
    simp only [tryBlock, h1, h2, h3, h4, h5, h6, if_neg hne]
  · rw [transcodePipeline_trace]
    simp only [tryBlock, h1, h2, h3, h4, h5, h6, if_neg hne]
    simp [List.mem_append]
  · rw [transcodePipeline_trace]
    simp only [tryBlock, h1, h2, h3, h4, h5, h6, if_neg hne]
    simp [List.mem_append]
  · rw [transcodePipeline_store]
    simp only [tryBlock, h1, h2, h3, h4, h5, h6, if_neg hne]
    simp [removeKey, List.mem_filter]

/-- Witness for C9 at the key `video.MP4`, whose lower-cased extension is
`mp4`. -/
theorem case_sensitive_retire_comparison_witness :
    ((transcodePipeline true envC9).resp = TResp.success "video.mp4" ∧
     Effect.storeDelete "video.MP4" ∈ (transcodePipeline true envC9).trace ∧
     Effect.fileCreate (inputPathOf 1000 (extOf "video.MP4")) ∈ (transcodePipeline true envC9).trace ∧
     "video.MP4" ∉ (transcodePipeline true envC9).store) ∧
    extOf "video.MP4" = "mp4" := by
  have h := case_sensitive_retire_comparison envC9 ⟨"video.MP4", 42⟩
    rfl (by decide) (by decide) (by decide) rfl rfl rfl rfl
  exact ⟨h, by decide⟩

end VideoPlayerApi
